import Mathlib

/-
Shallow embedding of the wiki crawl controller of src/app.js.

The CORE of the source (URL classification, link categorization, the
three-phase crawl, document aggregation) is translated directly.  Browser
platform collaborators are modelled as follows:

* the WHATWG URL parser (new URL(url)) is modelled by a simplified
  absolute-URL parser parseUrl giving protocol, host and pathname (query
  and fragment stripped, no normalization of case, ports or dot segments);
* the network + DOMParser pipeline of fetchPageContent is modelled by a
  function net : String -> NetResult supplying, on a successful response,
  the extracted page text and the resolved absolute hrefs; the parts of
  fetchPageContent that live in the source (the HTTP-failure branch, the
  filter to http links, the Set dedup, the trim) are translated;
* JavaScript Set objects are modelled as duplicate-free lists in insertion
  order (JS Sets iterate in insertion order, which Array.from preserves);
* the Phase 1 while loop is driven by an explicit fuel parameter; running
  out of fuel yields none.  Claim C9 shows enough fuel always exists;
* the mutable fields app.visitedUrls / app.processedSpaces are threaded
  explicitly through an AppState value, plus a ghost field fetched that
  logs, in order, every URL passed to fetchPageContent during a run.
-/

/-- Chars considered whitespace by the model of String.prototype.trim. -/
def isWsp (c : Char) : Bool := c == ' ' || c == '\t' || c == '\n' || c == '\r'

/-- Model of JS text.trim(): drop whitespace at both ends. -/
def strTrim (s : String) : String :=
  String.mk (((s.toList.dropWhile isWsp).reverse.dropWhile isWsp).reverse)

/-- Model of JS s.startsWith(p). -/
def strStarts (s p : String) : Bool := p.toList.isPrefixOf s.toList

/-- Model of JS '='.repeat(n) (with arbitrary char). -/
def repeatChar (c : Char) (n : Nat) : String := String.mk (List.replicate n c)

/-- Split a char list at the first occurrence of pat, returning the part
before and the part after the occurrence; none if pat does not occur. -/
def breakOnSub (pat : List Char) : List Char → Option (List Char × List Char)
  | [] => if pat.isEmpty then some ([], []) else none
  | c :: cs =>
    if pat.isPrefixOf (c :: cs) then some ([], (c :: cs).drop pat.length)
    else
      match breakOnSub pat cs with
      | some (bef, aft) => some (c :: bef, aft)
      | none => none

/-- Model of JS s.includes(pat). -/
def containsSub (s pat : String) : Bool := (breakOnSub pat.toList s.toList).isSome

/-- Model of JS str.split(sep) for a one-char separator: always returns at
least one (possibly empty) segment, and keeps empty segments. -/
def splitOnChar (sep : Char) : List Char → List (List Char)
  | [] => [[]]
  | c :: cs =>
    if c == sep then [] :: splitOnChar sep cs
    else
      match splitOnChar sep cs with
      | [] => [[c]]
      | seg :: segs => (c :: seg) :: segs

/-- Model of the parsed URL object produced by new URL(url): the three
fields the source reads (protocol includes the trailing colon, host
includes the port, pathname starts with a slash). -/
structure UrlObj where
  protocol : String
  host : String
  pathname : String
  deriving DecidableEq

/-- Simplified model of new URL(url) for absolute URLs: scheme, "://",
host up to the first slash, pathname up to a query or fragment.  A string
with no "://", an empty or non-alphabetic scheme, or an empty host is a
parse failure (the JS constructor throws). -/
def parseUrl (url : String) : Option UrlObj :=
  match breakOnSub "://".toList url.toList with
  | none => none
  | some (schemeChars, rest) =>
    if schemeChars = [] then none
    else if !schemeChars.all Char.isAlpha then none
    else
      match rest.takeWhile (fun c => c != '/' && c != '?' && c != '#') with
      | [] => none
      | h :: hs =>
        some { protocol := String.mk schemeChars ++ ":",
               host := String.mk (h :: hs),
               pathname :=
                 match (rest.drop (h :: hs).length).takeWhile (fun c => c != '?' && c != '#') with
                 | [] => "/"
                 | p => String.mk p }

/-- Result of parseWikiUrl (src/app.js lines 15-38).  On failure the JS
object has no wikiServer/spaceName fields, modelled as none. -/
structure ParseResult where
  wikiServer : Option String
  spaceName : Option String
  isValid : Bool
  deriving DecidableEq

/-- pathname.split('/') of src/app.js line 18. -/
def pathSegments (pathname : String) : List String :=
  (splitOnChar '/' pathname.toList).map String.mk

/-- Model of pathParts.indexOf('spaces') followed by reading
pathParts[spacesIndex + 1] (src/app.js lines 21-22): the element right
after the FIRST occurrence of "spaces", if any. -/
def nextAfterSpaces : List String → Option String
  | [] => none
  | seg :: rest => if seg = "spaces" then rest.head? else nextAfterSpaces rest

/-- parseWikiUrl of src/app.js lines 15-38: a URL is valid when the segment
after the first "spaces" path segment exists and is non-empty (JS truthy
check on a string); then server is protocol//host and space is that
segment. -/
def parseWikiUrl (url : String) : ParseResult :=
  match parseUrl url with
  | none => { wikiServer := none, spaceName := none, isValid := false }
  | some u =>
    match nextAfterSpaces (pathSegments u.pathname) with
    | none => { wikiServer := none, spaceName := none, isValid := false }
    | some next =>
      if next = "" then { wikiServer := none, spaceName := none, isValid := false }
      else { wikiServer := some (u.protocol ++ "//" ++ u.host),
             spaceName := some next, isValid := true }

/-- Outcome of one HTTP GET as seen by fetchPageContent: a successful
response (already reduced to extracted text and resolved absolute hrefs,
modelling the DOMParser pipeline of lines 58-78), a non-OK HTTP status
(line 54), or a network error (the fetch rejecting). -/
inductive NetResult where
  | ok (text : String) (links : List String)
  | httpError (status : Nat) (statusText : String)
  | netError (msg : String)
  deriving DecidableEq

/-- The object returned by fetchPageContent (src/app.js lines 80-89). -/
structure FetchResult where
  text : String
  links : List String
  success : Bool
  error : Option String
  deriving DecidableEq

/-- JS Set.add on a set modelled as a duplicate-free list in insertion
order. -/
def insertIfAbsent (l : List String) (a : String) : List String :=
  if a ∈ l then l else l ++ [a]

/-- Model of [...new Set(links)] (src/app.js line 82): dedup keeping the
first occurrence of each element. -/
def dedupFirst (l : List String) : List String := l.foldl insertIfAbsent []

/-- True when the response is a fetch failure (non-OK status or network
error), i.e. the catch branch of fetchPageContent runs. -/
def isNetFail : NetResult → Bool
  | .ok _ _ => false
  | .httpError _ _ => true
  | .netError _ => true

/-- fetchPageContent of src/app.js lines 41-90: on success, trimmed text
and the extracted links filtered to http(s) ones and deduplicated; on any
failure (thrown non-OK status at line 55, or network error) the catch
branch returns empty text, empty links and success=false (lines 85-89). -/
def fetchPageContent (net : String → NetResult) (url : String) : FetchResult :=
  match net url with
  | .ok text links =>
    { text := strTrim text,
      links := dedupFirst (links.filter (fun l => strStarts l "http")),
      success := true, error := none }
  | .httpError status statusText =>
    { text := "", links := [], success := false,
      error := some ("HTTP " ++ toString status ++ ": " ++ statusText) }
  | .netError msg =>
    { text := "", links := [], success := false, error := some msg }

/-- The module-level mutable crawl state of src/app.js lines 7-8, plus the
ghost field fetched logging every URL passed to fetchPageContent (in call
order) during the current run. -/
structure AppState where
  visitedUrls : List String
  processedSpaces : List String
  fetched : List String
  deriving DecidableEq

/-- State of one space crawl during Phase 1 (src/app.js lines 126-174):
the global visited set and fetch log, the FIFO pagesToVisit queue, and the
per-space spacePages / otherSpaceLinks / externalLinks sets, plus the
contextContent accumulator. -/
structure Phase1State where
  visited : List String
  fetched : List String
  queue : List String
  spacePages : List String
  otherSpaceLinks : List String
  externalLinks : List String
  doc : String
  deriving DecidableEq

/-- State threaded through the Phase 2 / Phase 3 loops (src/app.js lines
179-208): global visited set, fetch log and the document accumulator. -/
structure VisitState where
  visitedUrls : List String
  fetched : List String
  doc : String
  deriving DecidableEq

/-- A page section of the document: Phase 1 uses label "PAGE" (line 146),
Phase 2 "LINKED PAGE (Other Space)" (line 185), Phase 3 "EXTERNAL LINKED
PAGE" (line 202). -/
def mkSection (label url text : String) : String :=
  "\n--- " ++ label ++ ": " ++ url ++ " ---\n\n" ++ text ++ "\n"

/-- The space header of src/app.js lines 120-123. -/
def mkSpaceHeader (spaceName wikiServer : String) : String :=
  "\n\n" ++ repeatChar '=' 80 ++ "\n" ++ "WIKI SPACE: " ++ spaceName ++ "\n"
    ++ "Server: " ++ wikiServer ++ "\n" ++ repeatChar '=' 80 ++ "\n\n"

/-- The global document header of src/app.js lines 224-227. -/
def mkGlobalHeader (now userAgent : String) (resourceCount : Nat) : String :=
  "=== CORPORATE DOCUMENTATION CONTEXT ===\n" ++ "Generated: " ++ now ++ "\n"
    ++ "Total Resources: " ++ toString resourceCount ++ "\n"
    ++ "User: " ++ userAgent ++ "\n\n"

/-- The trailing summary of src/app.js lines 240-242. -/
def mkSummary (pagesProcessed : Nat) : String :=
  "\n\n" ++ repeatChar '=' 80 ++ "\n" ++ "Total pages processed: "
    ++ toString pagesProcessed ++ "\n" ++ repeatChar '=' 80 ++ "\n"

/-- The spacePrefix of src/app.js line 126. -/
def spacePrefOf (wikiServer spaceName : String) : String :=
  wikiServer ++ "/wiki/spaces/" ++ spaceName ++ "/"

/-- Link categorization of src/app.js lines 151-170, run once per
extracted link: same-space links not yet known are recorded and enqueued;
links containing /wiki/spaces/ go to otherSpaceLinks when they classify
valid with the same server (NO check that the space differs) and to
externalLinks otherwise; remaining http links go to externalLinks. -/
def categorizeLink (wikiServer spacePref : String) (st : Phase1State) (link : String) :
    Phase1State :=
  if strStarts link spacePref then
    if link ∉ st.spacePages ∧ link ∉ st.visited then
      { st with spacePages := st.spacePages ++ [link], queue := st.queue ++ [link] }
    else st
  else if containsSub link "/wiki/spaces/" then
    if (parseWikiUrl link).isValid = true ∧ (parseWikiUrl link).wikiServer = some wikiServer then
      { st with otherSpaceLinks := insertIfAbsent st.otherSpaceLinks link }
    else
      { st with externalLinks := insertIfAbsent st.externalLinks link }
  else if strStarts link "http" then
    { st with externalLinks := insertIfAbsent st.externalLinks link }
  else st

/-- The document append of src/app.js lines 145-148: a page section is
added only on fetch success with non-empty text. -/
def pageDocUpdate (r : FetchResult) (url : String) (st : Phase1State) : Phase1State :=
  if r.success = true ∧ r.text ≠ "" then
    { st with doc := st.doc ++ mkSection "PAGE" url r.text }
  else st

/-- The body of one Phase 1 iteration for a not-yet-visited URL (src/app.js
lines 142-170): mark visited (and log the fetch), fetch, append the page
section on success, then categorize every extracted link. -/
def processPage (net : String → NetResult) (wikiServer spacePref url : String)
    (st : Phase1State) : Phase1State :=
  (fetchPageContent net url).links.foldl (categorizeLink wikiServer spacePref)
    (pageDocUpdate (fetchPageContent net url) url
      { st with visited := st.visited ++ [url], fetched := st.fetched ++ [url] })

/-- The Phase 1 while loop of src/app.js lines 135-174, with explicit
fuel: pop the front of the queue, skip it when already visited, otherwise
process it; stop when the queue is empty.  none means the fuel ran out. -/
def phase1 (net : String → NetResult) (wikiServer spacePref : String) :
    Nat → Phase1State → Option Phase1State
  | 0, _ => none
  | Nat.succ f, st =>
    match st.queue with
    | [] => some st
    | u :: rest =>
      if u ∈ st.visited then
        phase1 net wikiServer spacePref f { st with queue := rest }
      else
        phase1 net wikiServer spacePref f
          (processPage net wikiServer spacePref u { st with queue := rest })

/-- The document append of src/app.js lines 184-187 / 201-204. -/
def visitDocUpdate (label link : String) (r : FetchResult) (vs : VisitState) : VisitState :=
  if r.success = true ∧ r.text ≠ "" then
    { vs with doc := vs.doc ++ mkSection label link r.text }
  else vs

/-- One iteration of the Phase 2 / Phase 3 for loops (src/app.js lines
179-191 and 196-208): skip a link already visited, otherwise mark it
visited (logging the fetch), fetch it, and append a section on success. -/
def phase23Step (net : String → NetResult) (label : String) (vs : VisitState)
    (link : String) : VisitState :=
  if link ∈ vs.visitedUrls then vs
  else
    visitDocUpdate label link (fetchPageContent net link)
      { vs with visitedUrls := vs.visitedUrls ++ [link], fetched := vs.fetched ++ [link] }

/-- A whole Phase 2 / Phase 3 loop over the selected links. -/
def phase23 (net : String → NetResult) (label : String) (links : List String)
    (vs : VisitState) : VisitState :=
  links.foldl (phase23Step net label) vs

/-- The initial Phase 1 state built by crawlWikiSpace (src/app.js lines
120-130): queue and spacePages seeded with the initial URL, empty link
sets, document starting with the space header. -/
def crawlPhase1Start (st : AppState) (wikiServer spaceName initialUrl : String) :
    Phase1State :=
  { visited := st.visitedUrls, fetched := st.fetched,
    queue := [initialUrl], spacePages := [initialUrl],
    otherSpaceLinks := [], externalLinks := [],
    doc := mkSpaceHeader spaceName wikiServer }

/-- Repack a VisitState and the processed-spaces set into the pair
(contextContent, final AppState) returned by a space crawl. -/
def vsToResult (procSpaces : List String) (vs : VisitState) : String × AppState :=
  (vs.doc,
    { visitedUrls := vs.visitedUrls, processedSpaces := procSpaces, fetched := vs.fetched })

/-- Phases 2 and 3 of a space crawl (src/app.js lines 176-210): at most
the first 20 entries of otherSpaceLinks, then at most the first 10 entries
of externalLinks (Array.from on a JS Set yields insertion order). -/
def crawlFinish (net : String → NetResult) (p1 : Phase1State)
    (procSpaces : List String) : String × AppState :=
  vsToResult procSpaces
    (phase23 net "EXTERNAL LINKED PAGE" (p1.externalLinks.take 10)
      (phase23 net "LINKED PAGE (Other Space)" (p1.otherSpaceLinks.take 20)
        { visitedUrls := p1.visited, fetched := p1.fetched, doc := p1.doc }))

/-- The error thrown for an invalid seed (src/app.js line 107). -/
def invalidUrlMsg : String :=
  "Invalid Wiki URL format. Expected: https://<server>/wiki/spaces/<space>/pages/..."

/-- crawlWikiSpace after a successful parse (src/app.js lines 110-210):
skip the whole space when its server::space key was already processed
(lines 113-116, returning the empty contribution with the state
untouched); otherwise record the key and run the three phases. -/
def crawlValidSpace (net : String → NetResult) (fuel : Nat) (st : AppState)
    (initialUrl wikiServer spaceName : String) :
    Option (Except String (String × AppState)) :=
  if wikiServer ++ "::" ++ spaceName ∈ st.processedSpaces then
    some (Except.ok ("", st))
  else
    match phase1 net wikiServer (spacePrefOf wikiServer spaceName) fuel
        (crawlPhase1Start st wikiServer spaceName initialUrl) with
    | none => none
    | some p1 =>
      some (Except.ok
        (crawlFinish net p1 (st.processedSpaces ++ [wikiServer ++ "::" ++ spaceName])))

/-- crawlWikiSpace (src/app.js lines 103-211): throws (Except.error) on an
invalid seed URL, with no state mutated before the throw. -/
def crawlWikiSpace (net : String → NetResult) (fuel : Nat) (st : AppState)
    (initialUrl : String) : Option (Except String (String × AppState)) :=
  if (parseWikiUrl initialUrl).isValid = true then
    crawlValidSpace net fuel st initialUrl
      ((parseWikiUrl initialUrl).wikiServer.getD "")
      ((parseWikiUrl initialUrl).spaceName.getD "")
  else some (Except.error invalidUrlMsg)

/-- One entry of app.resources (src/app.js lines 248-252). -/
structure Resource where
  id : Nat
  url : String
  deriving DecidableEq

/-- The inline error block appended by the catch of src/app.js line 235. -/
def errBlock (url msg : String) : String :=
  "\n\nERROR processing " ++ url ++ ": " ++ msg ++ "\n\n"

/-- The seed loop of collectContext (src/app.js lines 229-238): crawl each
resource in order, appending its contribution; a thrown error from one
seed appends the inline error block and continues with the next seed. -/
def collectLoop (net : String → NetResult) (fuel : Nat) :
    AppState → List Resource → Option (String × AppState)
  | st, [] => some ("", st)
  | st, r :: rest =>
    match crawlWikiSpace net fuel st r.url with
    | none => none
    | some (Except.ok (content, st')) =>
      (collectLoop net fuel st' rest).map (fun p => (content ++ p.1, p.2))
    | some (Except.error msg) =>
      (collectLoop net fuel st rest).map (fun p => (errBlock r.url msg ++ p.1, p.2))

/-- The reset of src/app.js lines 221-222: visitedUrls.clear() and
processedSpaces.clear() (the ghost fetch log restarts with the run). -/
def clearState (st : AppState) : AppState :=
  { st with visitedUrls := [], processedSpaces := [], fetched := [] }

/-- collectContext (src/app.js lines 214-245): filter blank resources,
fail when none remain, reset the global state, run the seed loop, and wrap
the result in the global header and the trailing summary (which reports
visitedUrls.size only).  The now / userAgent strings stand for
new Date().toISOString() and navigator.userAgent. -/
def collectContext (net : String → NetResult) (fuel : Nat) (st : AppState)
    (now userAgent : String) (resources : List Resource) :
    Option (Except String (String × AppState)) :=
  if (resources.filter (fun r => strTrim r.url != "")).length = 0 then
    some (Except.error "Please add at least one valid Wiki URL")
  else
    match collectLoop net fuel (clearState st)
        (resources.filter (fun r => strTrim r.url != "")) with
    | none => none
    | some (body, st') =>
      some (Except.ok
        (mkGlobalHeader now userAgent (resources.filter (fun r => strTrim r.url != "")).length
            ++ (body ++ mkSummary st'.visitedUrls.length),
          st'))

/-- The at-most-once-fetch invariant: the fetch log has no duplicates and
every fetched URL is in the visited set. -/
def FetchOk (visited fetched : List String) : Prop :=
  fetched.Nodup ∧ ∀ u, u ∈ fetched → u ∈ visited

/-- A finite same-space link universe for claim C9: U is closed under
following same-space (prefix-matching) links of pages in U. -/
def SameSpaceClosed (net : String → NetResult) (spacePref : String) (U : Finset String) :
    Prop :=
  ∀ url ∈ U, ∀ l ∈ (fetchPageContent net url).links, strStarts l spacePref = true → l ∈ U

/-- Termination measure for the Phase 1 loop: twice the number of
universe pages not yet recorded in spacePages, plus the queue length. -/
def p1Measure (U : Finset String) (st : Phase1State) : Nat :=
  2 * (U \ st.spacePages.toFinset).card + st.queue.length

/-- The last n characters of a string. -/
def strTakeRight (s : String) (n : Nat) : String :=
  String.mk ((s.toList.reverse.take n).reverse)

/-- Modelled from the spec (claim C5 wording only, for the counterexample):
true when the path segment list contains a segment literally equal to
"spaces" immediately followed by a non-empty segment — anywhere, not just
at the first occurrence of "spaces". -/
def hasSpacesNext : List String → Bool
  | [] => false
  | seg :: rest => (seg == "spaces" && (rest.head?.getD "") != "") || hasSpacesNext rest

/-- The empty crawl state. -/
def emptyAppState : AppState := ⟨[], [], []⟩

/-- A crawl state carrying junk, used to show collectContext resets it. -/
def stDirty : AppState := ⟨["x"], ["y"], ["x"]⟩

/-- A state in which space A on server https://h was already processed. -/
def stC6 : AppState := ⟨[], ["https://h::A"], []⟩

/-- A network on which every request fails. -/
def net0 : String → NetResult := fun _ => NetResult.netError "offline"

/-- Network for the C2 counterexample: the seed page of space TEAM links
to the same space's root URL, which does not match the spacePrefix. -/
def netC2 : String → NetResult := fun url =>
  if url = "https://s/wiki/spaces/TEAM/pages/1/Home" then
    NetResult.ok "hi" ["https://s/wiki/spaces/TEAM"]
  else NetResult.netError "offline"

/-- Network for the C4 counterexample and several witnesses: the space-T
root page links to itself. -/
def netC4 : String → NetResult := fun url =>
  if url = "https://s/wiki/spaces/T" then
    NetResult.ok "hello" ["https://s/wiki/spaces/T"]
  else NetResult.netError "offline"

/-- Network for C3 run A: one space with two pages. -/
def netA : String → NetResult := fun url =>
  if url = "https://h/wiki/spaces/A/pages/1/x" then
    NetResult.ok "t" ["https://h/wiki/spaces/A/pages/2/y"]
  else if url = "https://h/wiki/spaces/A/pages/2/y" then
    NetResult.ok "u" []
  else NetResult.netError "offline"

/-- Network for C3 run B: two spaces with one page each. -/
def netB : String → NetResult := fun url =>
  if url = "https://h/wiki/spaces/B/pages/1/x" then NetResult.ok "t" []
  else if url = "https://h/wiki/spaces/C/pages/1/x" then NetResult.ok "t" []
  else NetResult.netError "offline"

/-- Projection used by the C3 counterexample: the space count, the page
count, and the last (mkSummary 2).length characters of the document. -/
def c3proj (o : Option (Except String (String × AppState))) :
    Option (Except String (Nat × Nat × String)) :=
  o.map (fun e => e.map (fun p =>
    (p.2.processedSpaces.length, p.2.visitedUrls.length,
      strTakeRight p.1 (mkSummary 2).length)))

/-- Network for the C1 witness: the page of space A links to the seed of
space B, so the second seed is already visited when its own crawl runs. -/
def netW : String → NetResult := fun url =>
  if url = "https://h/wiki/spaces/A/pages/1/x" then
    NetResult.ok "a" ["https://h/wiki/spaces/B/pages/1/y"]
  else if url = "https://h/wiki/spaces/B/pages/1/y" then
    NetResult.ok "b" []
  else NetResult.netError "offline"

/-- categorizeLink never touches the visited set or the fetch log. -/
theorem categorizeLink_visited_fetched (ws sp : String) (st : Phase1State) (l : String) :
    (categorizeLink ws sp st l).visited = st.visited ∧
    (categorizeLink ws sp st l).fetched = st.fetched := by
  unfold categorizeLink
  split_ifs <;> exact ⟨rfl, rfl⟩

/-- pageDocUpdate only changes the document field. -/
theorem pageDocUpdate_fields (r : FetchResult) (url : String) (st : Phase1State) :
    (pageDocUpdate r url st).visited = st.visited ∧
    (pageDocUpdate r url st).fetched = st.fetched ∧
    (pageDocUpdate r url st).queue = st.queue ∧
    (pageDocUpdate r url st).spacePages = st.spacePages ∧
    (pageDocUpdate r url st).otherSpaceLinks = st.otherSpaceLinks ∧
    (pageDocUpdate r url st).externalLinks = st.externalLinks := by
  unfold pageDocUpdate
  split_ifs <;> exact ⟨rfl, rfl, rfl, rfl, rfl, rfl⟩

/-- Categorizing a whole link list never touches visited or the log. -/
theorem foldl_cat_visited_fetched (ws sp : String) :
    ∀ (links : List String) (st : Phase1State),
    (links.foldl (categorizeLink ws sp) st).visited = st.visited ∧
    (links.foldl (categorizeLink ws sp) st).fetched = st.fetched := by
  intro links
  induction links with
  | nil => intro st; exact ⟨rfl, rfl⟩
  | cons l ls ih =>
    intro st
    simp only [List.foldl_cons]
    obtain ⟨h1, h2⟩ := ih (categorizeLink ws sp st l)
    obtain ⟨g1, g2⟩ := categorizeLink_visited_fetched ws sp st l
    exact ⟨h1.trans g1, h2.trans g2⟩

/-- Processing one page appends exactly that URL to the visited set and to
the fetch log. -/
theorem processPage_visited_fetched (net : String → NetResult) (ws sp url : String)
    (st : Phase1State) :
    (processPage net ws sp url st).visited = st.visited ++ [url] ∧
    (processPage net ws sp url st).fetched = st.fetched ++ [url] := by
  unfold processPage
  have hf := foldl_cat_visited_fetched ws sp (fetchPageContent net url).links
    (pageDocUpdate (fetchPageContent net url) url
      { st with visited := st.visited ++ [url], fetched := st.fetched ++ [url] })
  have hp := pageDocUpdate_fields (fetchPageContent net url) url
    { st with visited := st.visited ++ [url], fetched := st.fetched ++ [url] }
  exact ⟨hf.1.trans hp.1, hf.2.trans hp.2.1⟩

/-- C10: when a fetch fails (network error or non-OK HTTP status),
fetchPageContent returns success=false with empty text and an empty link
list, and consequently the Phase 1 processing of that page changes nothing
but the visited set and the fetch log: no document section is appended,
no link is categorized, and nothing is enqueued, so all discovery through
that page is pruned. -/
theorem c10_fetch_failure_prunes (net : String → NetResult) (url : String)
    (h : isNetFail (net url) = true) :
    (fetchPageContent net url).text = "" ∧
    (fetchPageContent net url).links = [] ∧
    (fetchPageContent net url).success = false ∧
    ∀ (ws sp : String) (st : Phase1State),
      processPage net ws sp url st
        = { st with visited := st.visited ++ [url], fetched := st.fetched ++ [url] } := by
  cases hn : net url with
  | ok t ls => rw [hn] at h; simp [isNetFail] at h
  | httpError s sx =>
    refine ⟨?_, ?_, ?_, ?_⟩ <;>
      simp [fetchPageContent, hn, processPage, pageDocUpdate]
  | netError m =>
    refine ⟨?_, ?_, ?_, ?_⟩ <;>
      simp [fetchPageContent, hn, processPage, pageDocUpdate]

/-- Witness for C10 at a concrete failing URL and concrete state. -/
theorem c10_witness :
    (fetchPageContent net0 "https://x").text = "" ∧
    (fetchPageContent net0 "https://x").links = [] ∧
    (fetchPageContent net0 "https://x").success = false ∧
    processPage net0 "https://h" "https://h/wiki/spaces/A/" "https://x"
        (crawlPhase1Start emptyAppState "https://h" "A" "https://a")
      = { crawlPhase1Start emptyAppState "https://h" "A" "https://a" with
          visited := (crawlPhase1Start emptyAppState "https://h" "A" "https://a").visited
            ++ ["https://x"],
          fetched := (crawlPhase1Start emptyAppState "https://h" "A" "https://a").fetched
            ++ ["https://x"] } := by
  obtain ⟨h1, h2, h3, h4⟩ := c10_fetch_failure_prunes net0 "https://x" (by decide)
  exact ⟨h1, h2, h3,
    h4 "https://h" "https://h/wiki/spaces/A/"
      (crawlPhase1Start emptyAppState "https://h" "A" "https://a")⟩

/-- C6: a seed URL whose (server, space) key is already in processedSpaces
makes crawlWikiSpace return the empty contribution with the state (and in
particular the fetch log) completely untouched: the space is never
re-crawled within one run. -/
theorem c6_space_skip (net : String → NetResult) (fuel : Nat) (st : AppState)
    (url ws sn : String)
    (hp : parseWikiUrl url = ⟨some ws, some sn, true⟩)
    (hmem : ws ++ "::" ++ sn ∈ st.processedSpaces) :
    crawlWikiSpace net fuel st url = some (Except.ok ("", st)) := by
  unfold crawlWikiSpace
  rw [hp]
  show crawlValidSpace net fuel st url ws sn = some (Except.ok ("", st))
  unfold crawlValidSpace
  rw [if_pos hmem]

/-- Witness for C6: space A on server https://h was already processed, so
the crawl of a second seed into it contributes nothing and fetches
nothing. -/
theorem c6_witness :
    crawlWikiSpace net0 0 stC6 "https://h/wiki/spaces/A/pages/1"
      = some (Except.ok ("", stC6)) :=
  c6_space_skip net0 0 stC6 "https://h/wiki/spaces/A/pages/1" "https://h" "A"
    (by decide) (by decide)

/-- C7: when one seed fails wiki-URL validation, the seed loop of
collectContext appends the inline ERROR block for that seed and processes
the remaining seeds exactly as it would have without it: a single bad
seed never aborts the collection. -/
theorem c7_error_marker_continues (net : String → NetResult) (fuel : Nat) (st : AppState)
    (r : Resource) (rest : List Resource)
    (h : (parseWikiUrl r.url).isValid = false) :
    collectLoop net fuel st (r :: rest)
      = (collectLoop net fuel st rest).map
          (fun p => (errBlock r.url invalidUrlMsg ++ p.1, p.2)) := by
  have hc : crawlWikiSpace net fuel st r.url = some (Except.error invalidUrlMsg) := by
    unfold crawlWikiSpace
    rw [h]
    simp
  conv_lhs => rw [collectLoop]
  rw [hc]

/-- Witness for C7: the invalid seed "nourl" produces the ERROR block and
the following valid seed is still processed. -/
theorem c7_witness :
    collectLoop net0 1 emptyAppState [⟨1, "nourl"⟩, ⟨2, "https://h/wiki/spaces/A/p"⟩]
      = (collectLoop net0 1 emptyAppState [⟨2, "https://h/wiki/spaces/A/p"⟩]).map
          (fun p => (errBlock "nourl" invalidUrlMsg ++ p.1, p.2)) :=
  c7_error_marker_continues net0 1 emptyAppState ⟨1, "nourl"⟩
    [⟨2, "https://h/wiki/spaces/A/p"⟩] (by decide)

/-- C2 (amended): during Phase 1, a link newly added to the other-space
link set necessarily fails the spacePrefix test, contains the literal
substring /wiki/spaces/, and classifies valid with the same server as the
current crawl — but its space may EQUAL the current space: the code never
compares spaces (see the counterexample). -/
theorem c2_other_space_only_if (ws sp : String) (st : Phase1State) (link : String)
    (hmem : link ∈ (categorizeLink ws sp st link).otherSpaceLinks)
    (hnew : link ∉ st.otherSpaceLinks) :
    strStarts link sp = false ∧
    containsSub link "/wiki/spaces/" = true ∧
    (parseWikiUrl link).isValid = true ∧
    (parseWikiUrl link).wikiServer = some ws := by
  unfold categorizeLink at hmem
  split_ifs at hmem with h1 h2 h3 h4 h5
  · exact absurd hmem hnew
  · exact absurd hmem hnew
  · simp only [Bool.not_eq_true] at h1
    exact ⟨h1, h3, h4.1, h4.2⟩
  · exact absurd hmem hnew
  · exact absurd hmem hnew
  · exact absurd hmem hnew

/-- Counterexample for C2 as stated: crawling space TEAM on server
https://s (prefix https://s/wiki/spaces/TEAM/), Phase 1 puts the link
https://s/wiki/spaces/TEAM — which classifies valid with the same server
AND THE SAME SPACE "TEAM" — into the other-space link set, because it does
not start with the trailing-slash prefix and the code never compares the
link's space to the current one. -/
theorem c2_counterexample :
    parseWikiUrl "https://s/wiki/spaces/TEAM/pages/1/Home"
      = ⟨some "https://s", some "TEAM", true⟩ ∧
    (phase1 netC2 "https://s" (spacePrefOf "https://s" "TEAM") 2
        (crawlPhase1Start emptyAppState "https://s" "TEAM"
          "https://s/wiki/spaces/TEAM/pages/1/Home")).map
        (fun st => st.otherSpaceLinks)
      = some ["https://s/wiki/spaces/TEAM"] ∧
    parseWikiUrl "https://s/wiki/spaces/TEAM"
      = ⟨some "https://s", some "TEAM", true⟩ :=
  ⟨by decide, by decide, by decide⟩

/-- Witness for the amended C2 at a concrete cross-space link. -/
theorem c2_witness :
    strStarts "https://s/wiki/spaces/B/pages/1" (spacePrefOf "https://s" "A") = false ∧
    containsSub "https://s/wiki/spaces/B/pages/1" "/wiki/spaces/" = true ∧
    (parseWikiUrl "https://s/wiki/spaces/B/pages/1").isValid = true ∧
    (parseWikiUrl "https://s/wiki/spaces/B/pages/1").wikiServer = some "https://s" :=
  c2_other_space_only_if "https://s" (spacePrefOf "https://s" "A")
    (crawlPhase1Start emptyAppState "https://s" "A" "https://s/wiki/spaces/A/p")
    "https://s/wiki/spaces/B/pages/1" (by decide) (by decide)

/-- The element after the first "spaces" segment, when "spaces" does not
occur earlier. -/
theorem nextAfterSpaces_of_first (next : String) (rest : List String) :
    ∀ pre : List String, "spaces" ∉ pre →
    nextAfterSpaces (pre ++ "spaces" :: next :: rest) = some next := by
  intro pre
  induction pre with
  | nil => intro _; simp [nextAfterSpaces]
  | cons a as ih =>
    intro h
    have ha : a ≠ "spaces" := by
      intro e
      exact h (by simp [e])
    simp only [List.cons_append, nextAfterSpaces]
    rw [if_neg ha]
    exact ih (fun hm => h (List.mem_cons_of_mem a hm))

/-- Inversion: when nextAfterSpaces finds a successor, the list decomposes
around a first "spaces" segment with that successor right after it. -/
theorem nextAfterSpaces_eq_some :
    ∀ (l : List String) (nx : String), nextAfterSpaces l = some nx →
    ∃ (pre rest : List String), l = pre ++ "spaces" :: nx :: rest ∧ "spaces" ∉ pre := by
  intro l
  induction l with
  | nil => intro nx h; simp [nextAfterSpaces] at h
  | cons seg tl ih =>
    intro nx h
    by_cases hs : seg = "spaces"
    · subst hs
      unfold nextAfterSpaces at h
      rw [if_pos rfl] at h
      rcases tl with _ | ⟨a, tl'⟩
      · simp at h
      · simp only [List.head?_cons, Option.some.injEq] at h
        subst h
        exact ⟨[], tl', rfl, by simp⟩
    · unfold nextAfterSpaces at h
      rw [if_neg hs] at h
      obtain ⟨pre, rest, hdec, hpre⟩ := ih nx h
      refine ⟨seg :: pre, rest, by rw [List.cons_append, hdec], ?_⟩
      intro hm
      rcases List.mem_cons.1 hm with he | he
      · exact hs he.symm
      · exact hpre he

/-- C5 (amended): the classifier keys on the FIRST "spaces" path segment
only.  Three parts: (1) when the parsed pathname's segment list decomposes
as pre ++ "spaces" :: next :: rest with no "spaces" in pre and next
non-empty, the result is valid with server = protocol//host and
space = next; (2) every invalid result carries no server and no space (no
partial results); (3) ONLY such strings are valid: a valid result forces a
parse into exactly that first-"spaces" decomposition — contrapositively,
every other string (malformed URL, no "spaces" segment, or first "spaces"
segment not followed by a non-empty segment) yields isValid=false.  For a
path whose FIRST "spaces" segment is followed by an empty segment the
code reports invalid even if a later "spaces" segment has a non-empty
successor (see the counterexample). -/
theorem c5_first_spaces_segment :
    (∀ (url : String) (u : UrlObj) (pre : List String) (next : String) (rest : List String),
        parseUrl url = some u →
        pathSegments u.pathname = pre ++ "spaces" :: next :: rest →
        "spaces" ∉ pre → next ≠ "" →
        parseWikiUrl url = ⟨some (u.protocol ++ "//" ++ u.host), some next, true⟩)
    ∧ (∀ url : String, (parseWikiUrl url).isValid = false →
        (parseWikiUrl url).wikiServer = none ∧ (parseWikiUrl url).spaceName = none)
    ∧ (∀ url : String, (parseWikiUrl url).isValid = true →
        ∃ (u : UrlObj) (pre : List String) (next : String) (rest : List String),
          parseUrl url = some u ∧
          pathSegments u.pathname = pre ++ "spaces" :: next :: rest ∧
          "spaces" ∉ pre ∧ next ≠ "" ∧
          parseWikiUrl url = ⟨some (u.protocol ++ "//" ++ u.host), some next, true⟩) := by
  refine ⟨?_, ?_, ?_⟩
  · intro url u pre next rest hu hseg hpre hne
    simp [parseWikiUrl, hu, hseg, nextAfterSpaces_of_first next rest pre hpre, hne]
  · intro url
    rcases hp : parseUrl url with _ | u
    · simp [parseWikiUrl, hp]
    · rcases hn : nextAfterSpaces (pathSegments u.pathname) with _ | nx
      · simp [parseWikiUrl, hp, hn]
      · by_cases he : nx = ""
        · simp [parseWikiUrl, hp, hn, he]
        · simp [parseWikiUrl, hp, hn, he]
  · intro url hv
    rcases hp : parseUrl url with _ | u
    · have hinv : parseWikiUrl url = ⟨none, none, false⟩ := by simp [parseWikiUrl, hp]
      rw [hinv] at hv
      simp at hv
    · rcases hn : nextAfterSpaces (pathSegments u.pathname) with _ | nx
      · have hinv : parseWikiUrl url = ⟨none, none, false⟩ := by simp [parseWikiUrl, hp, hn]
        rw [hinv] at hv
        simp at hv
      · by_cases he : nx = ""
        · have hinv : parseWikiUrl url = ⟨none, none, false⟩ := by
            simp [parseWikiUrl, hp, hn, he]
          rw [hinv] at hv
          simp at hv
        · obtain ⟨pre, rest, hdec, hpre⟩ := nextAfterSpaces_eq_some (pathSegments u.pathname) nx hn
          exact ⟨u, pre, nx, rest, rfl, hdec, hpre, he, by simp [parseWikiUrl, hp, hn, he]⟩

/-- Counterexample for C5 as stated: https://h/spaces//spaces/X parses
fine and its path DOES contain a segment "spaces" immediately followed by
the non-empty segment "X", yet the classifier reports isValid=false,
because the FIRST "spaces" segment is followed by an empty segment and
indexOf only ever finds the first occurrence. -/
theorem c5_counterexample :
    ∃ u : UrlObj, parseUrl "https://h/spaces//spaces/X" = some u ∧
      hasSpacesNext (pathSegments u.pathname) = true ∧
      parseWikiUrl "https://h/spaces//spaces/X" = ⟨none, none, false⟩ :=
  ⟨⟨"https:", "h", "/spaces//spaces/X"⟩, by decide, by decide, by decide⟩

/-- Witness for the amended C5 on a well-formed wiki URL. -/
theorem c5_witness :
    parseWikiUrl "https://wiki.example.com/wiki/spaces/TEAM/pages/1/Home"
      = ⟨some "https://wiki.example.com", some "TEAM", true⟩ :=
  c5_first_spaces_segment.1 "https://wiki.example.com/wiki/spaces/TEAM/pages/1/Home"
    ⟨"https:", "wiki.example.com", "/wiki/spaces/TEAM/pages/1/Home"⟩
    ["", "wiki"] "TEAM" ["pages", "1", "Home"] (by decide) (by decide) (by decide) (by decide)

/-- phase23Step leaves the state alone for a visited link; otherwise it
appends the link to both the visited set and the fetch log. -/
theorem phase23Step_fields (net : String → NetResult) (label : String)
    (vs : VisitState) (link : String) :
    (link ∈ vs.visitedUrls ∧ phase23Step net label vs link = vs)
    ∨ (link ∉ vs.visitedUrls
        ∧ (phase23Step net label vs link).visitedUrls = vs.visitedUrls ++ [link]
        ∧ (phase23Step net label vs link).fetched = vs.fetched ++ [link]) := by
  by_cases hv : link ∈ vs.visitedUrls
  · left
    refine ⟨hv, ?_⟩
    unfold phase23Step
    exact if_pos hv
  · right
    refine ⟨hv, ?_, ?_⟩ <;>
    · unfold phase23Step visitDocUpdate
      rw [if_neg hv]
      split_ifs <;> rfl

/-- Fetch count of a Phase 2 / Phase 3 loop over duplicate-free links: one
fetch per selected link not already visited at loop entry. -/
theorem phase23_fetched_len (net : String → NetResult) (label : String) :
    ∀ (links : List String) (vs : VisitState), links.Nodup →
    (phase23 net label links vs).fetched.length
      = vs.fetched.length + (links.filter (fun l => decide (l ∉ vs.visitedUrls))).length := by
  intro links
  induction links with
  | nil => intro vs _; simp [phase23]
  | cons l rest ih =>
    intro vs hnd
    have hl : l ∉ rest := (List.nodup_cons.1 hnd).1
    have hrest : rest.Nodup := (List.nodup_cons.1 hnd).2
    have hcons : phase23 net label (l :: rest) vs
        = phase23 net label rest (phase23Step net label vs l) := rfl
    rw [hcons]
    rcases phase23Step_fields net label vs l with ⟨hv, hstep⟩ | ⟨hv, hvis, hfet⟩
    · rw [hstep, ih vs hrest]
      simp [List.filter_cons, hv]
    · rw [ih (phase23Step net label vs l) hrest, hfet]
      have hfilter : rest.filter (fun x => decide (x ∉ (phase23Step net label vs l).visitedUrls))
          = rest.filter (fun x => decide (x ∉ vs.visitedUrls)) := by
        apply List.filter_congr
        intro x hx
        have hxl : x ≠ l := fun e => hl (e ▸ hx)
        rw [hvis]
        exact decide_eq_decide.2 (by simp [hxl])
      rw [hfilter]
      simp [List.filter_cons, hv, List.length_append]
      omega

/-- C4 (amended): over a duplicate-free link set, the number of fetches a
Phase 2 / Phase 3 loop performs on the first n selected entries equals the
number of those entries NOT already visited at loop entry — at most
min(n, |set|), and equal to min(n, |set|) only when none of the selected
entries was previously visited; the code's skip of visited links makes the
claimed unconditional equality with min(20,|set|) / min(10,|set|) false
(see the counterexample). -/
theorem c4_phase23_fetch_count (net : String → NetResult) (label : String) (n : Nat)
    (links : List String) (vs : VisitState) (hnd : links.Nodup) :
    (phase23 net label (links.take n) vs).fetched.length
      = vs.fetched.length
        + ((links.take n).filter (fun l => decide (l ∉ vs.visitedUrls))).length
    ∧ ((links.take n).filter (fun l => decide (l ∉ vs.visitedUrls))).length
        ≤ min n links.length := by
  constructor
  · exact phase23_fetched_len net label (links.take n) vs ((List.take_sublist n links).nodup hnd)
  · calc ((links.take n).filter (fun l => decide (l ∉ vs.visitedUrls))).length
        ≤ (links.take n).length := List.length_filter_le _ _
      _ = min n links.length := List.length_take n links

/-- Counterexample for C4 as stated: crawling space T seeded with its
root URL (which does not match the trailing-slash prefix), Phase 1 ends
with otherSpaceLinks of size 1 — so min(20,|otherSpaceLinks|) = 1 — but
the single candidate is the already-visited seed itself, so Phase 2
performs 0 fetches (the fetch log stays at length 1). -/
theorem c4_counterexample :
    (phase1 netC4 "https://s" (spacePrefOf "https://s" "T") 2
        (crawlPhase1Start emptyAppState "https://s" "T" "https://s/wiki/spaces/T")).map
      (fun st =>
        (min 20 st.otherSpaceLinks.length,
          (phase23 netC4 "LINKED PAGE (Other Space)" (st.otherSpaceLinks.take 20)
            { visitedUrls := st.visited, fetched := st.fetched, doc := st.doc }).fetched.length,
          st.fetched.length))
      = some (1, 1, 1) := by decide

/-- Witness for the amended C4 on a concrete two-link set with one link
already visited. -/
theorem c4_witness :
    (phase23 net0 "LINKED PAGE (Other Space)" (["https://a", "https://b"].take 20)
        ⟨["https://a"], ["https://a"], ""⟩).fetched.length
      = (["https://a"] : List String).length
        + ((["https://a", "https://b"].take 20).filter
            (fun l => decide (l ∉ (["https://a"] : List String)))).length
    ∧ ((["https://a", "https://b"].take 20).filter
          (fun l => decide (l ∉ (["https://a"] : List String)))).length
        ≤ min 20 (["https://a", "https://b"] : List String).length :=
  c4_phase23_fetch_count net0 "LINKED PAGE (Other Space)" 20 ["https://a", "https://b"]
    ⟨["https://a"], ["https://a"], ""⟩ (by decide)

/-- C3 (amended): every document produced by collectContext ends with the
trailing summary, and that summary reports ONLY the total number of pages
visited (visitedUrls.size); the distinct-space total is not part of the
document (the code prints it only in the chat statistics) — see the
counterexample. -/
theorem c3_trailing_summary_pages (net : String → NetResult) (fuel : Nat) (st : AppState)
    (now ua : String) (rs : List Resource) (d : String) (s : AppState)
    (h : collectContext net fuel st now ua rs = some (Except.ok (d, s))) :
    ∃ p : String, d = p ++ mkSummary s.visitedUrls.length := by
  unfold collectContext at h
  split_ifs at h with h0
  · simp at h
  · rcases hl : collectLoop net fuel (clearState st)
        (rs.filter (fun r => strTrim r.url != "")) with _ | ⟨body, st'⟩
    · rw [hl] at h
      simp at h
    · rw [hl] at h
      simp only [Option.some.injEq, Except.ok.injEq, Prod.mk.injEq] at h
      obtain ⟨hd, hs⟩ := h
      subst hs
      refine ⟨mkGlobalHeader now ua (rs.filter (fun r => strTrim r.url != "")).length ++ body, ?_⟩
      rw [← hd, String.append_assoc]

set_option maxRecDepth 100000 in
/-- Counterexample for C3 as stated: run A (netA, one seed) visits 2 pages
in 1 space; run B (netB, two seeds) visits 2 pages in 2 spaces.  Both
documents end with the identical byte string mkSummary 2 — the entire
trailing summary — although their distinct-space totals differ (1 vs 2),
so the trailing summary cannot report the number of distinct spaces. -/
theorem c3_counterexample :
    c3proj (collectContext netA 3 emptyAppState "T" "UA"
        [⟨1, "https://h/wiki/spaces/A/pages/1/x"⟩])
      = some (Except.ok (1, 2, mkSummary 2)) ∧
    c3proj (collectContext netB 3 emptyAppState "T" "UA"
        [⟨1, "https://h/wiki/spaces/B/pages/1/x"⟩, ⟨2, "https://h/wiki/spaces/C/pages/1/x"⟩])
      = some (Except.ok (2, 2, mkSummary 2)) :=
  ⟨rfl, rfl⟩

set_option maxRecDepth 100000 in
/-- Witness for the amended C3 on the concrete run A. -/
theorem c3_witness :
    ∃ (d : String) (s : AppState),
      collectContext netA 3 emptyAppState "T" "UA" [⟨1, "https://h/wiki/spaces/A/pages/1/x"⟩]
        = some (Except.ok (d, s))
      ∧ ∃ p : String, d = p ++ mkSummary s.visitedUrls.length := by
  obtain ⟨d, s, h⟩ : ∃ (d : String) (s : AppState),
      collectContext netA 3 emptyAppState "T" "UA" [⟨1, "https://h/wiki/spaces/A/pages/1/x"⟩]
        = some (Except.ok (d, s)) := ⟨_, _, rfl⟩
  exact ⟨d, s, h, c3_trailing_summary_pages netA 3 emptyAppState "T" "UA" _ d s h⟩

/-- C8: two collectContext calls with the same seeds, the same fetcher and
the same user agent — but arbitrary incoming crawl states and different
timestamps — produce the same final state and byte-identical documents
except for the embedded generation timestamp in the header; VisitedSet and
ProcessedSpaces are reset at the start of each invocation, so the second
run is unaffected by the first. -/
theorem c8_idempotent_modulo_timestamp (net : String → NetResult) (fuel : Nat)
    (st1 st2 : AppState) (now1 now2 ua : String) (rs : List Resource)
    (d1 d2 : String) (s1 s2 : AppState)
    (h1 : collectContext net fuel st1 now1 ua rs = some (Except.ok (d1, s1)))
    (h2 : collectContext net fuel st2 now2 ua rs = some (Except.ok (d2, s2))) :
    s1 = s2 ∧ ∃ t : String,
      d1 = mkGlobalHeader now1 ua (rs.filter (fun r => strTrim r.url != "")).length ++ t ∧
      d2 = mkGlobalHeader now2 ua (rs.filter (fun r => strTrim r.url != "")).length ++ t := by
  unfold collectContext at h1 h2
  split_ifs at h1 h2 with h0
  · simp at h1
  · have hclear : clearState st1 = clearState st2 := rfl
    rw [hclear] at h1
    rcases hl : collectLoop net fuel (clearState st2)
        (rs.filter (fun r => strTrim r.url != "")) with _ | ⟨body, st'⟩
    · rw [hl] at h1
      simp at h1
    · rw [hl] at h1 h2
      simp only [Option.some.injEq, Except.ok.injEq, Prod.mk.injEq] at h1 h2
      obtain ⟨hd1, hs1⟩ := h1
      obtain ⟨hd2, hs2⟩ := h2
      constructor
      · rw [← hs1, ← hs2]
      · refine ⟨body ++ mkSummary st'.visitedUrls.length, ?_, ?_⟩
        · rw [← hd1]
        · rw [← hd2]

set_option maxRecDepth 100000 in
/-- Witness for C8: a run starting from a dirty state and a run starting
from the empty state, with different timestamps, agree on the final state
and on everything after the header. -/
theorem c8_witness :
    ∃ (d1 : String) (s1 : AppState) (d2 : String) (s2 : AppState),
      collectContext netC4 3 stDirty "2024-01-01T00:00:00Z" "UA"
          [⟨1, "https://s/wiki/spaces/T"⟩] = some (Except.ok (d1, s1))
      ∧ collectContext netC4 3 emptyAppState "2025-06-30T12:00:00Z" "UA"
          [⟨1, "https://s/wiki/spaces/T"⟩] = some (Except.ok (d2, s2))
      ∧ s1 = s2
      ∧ ∃ t : String,
          d1 = mkGlobalHeader "2024-01-01T00:00:00Z" "UA" 1 ++ t
          ∧ d2 = mkGlobalHeader "2025-06-30T12:00:00Z" "UA" 1 ++ t := by
  obtain ⟨d1, s1, h1⟩ : ∃ (d : String) (s : AppState),
      collectContext netC4 3 stDirty "2024-01-01T00:00:00Z" "UA"
        [⟨1, "https://s/wiki/spaces/T"⟩] = some (Except.ok (d, s)) := ⟨_, _, rfl⟩
  obtain ⟨d2, s2, h2⟩ : ∃ (d : String) (s : AppState),
      collectContext netC4 3 emptyAppState "2025-06-30T12:00:00Z" "UA"
        [⟨1, "https://s/wiki/spaces/T"⟩] = some (Except.ok (d, s)) := ⟨_, _, rfl⟩
  obtain ⟨hs, ht⟩ := c8_idempotent_modulo_timestamp netC4 3 stDirty emptyAppState
    "2024-01-01T00:00:00Z" "2025-06-30T12:00:00Z" "UA" [⟨1, "https://s/wiki/spaces/T"⟩]
    d1 d2 s1 s2 h1 h2
  exact ⟨d1, s1, d2, s2, h1, h2, hs, ht⟩

/-- Appending a not-yet-visited URL to both the visited set and the fetch
log preserves the at-most-once-fetch invariant. -/
theorem fetchOk_push (visited fetched : List String) (url : String)
    (h : FetchOk visited fetched) (hu : url ∉ visited) :
    FetchOk (visited ++ [url]) (fetched ++ [url]) := by
  obtain ⟨hnd, hsub⟩ := h
  constructor
  · rw [List.nodup_append]
    refine ⟨hnd, List.nodup_singleton url, ?_⟩
    intro x hx hx'
    rcases List.mem_singleton.1 hx' with rfl
    exact hu (hsub x hx)
  · intro u hu'
    rcases List.mem_append.1 hu' with h1 | h1
    · exact List.mem_append_left _ (hsub u h1)
    · exact List.mem_append_right _ h1

/-- Processing a not-yet-visited page preserves the invariant. -/
theorem fetchOk_processPage (net : String → NetResult) (ws sp url : String)
    (st : Phase1State) (h : FetchOk st.visited st.fetched) (hu : url ∉ st.visited) :
    FetchOk (processPage net ws sp url st).visited (processPage net ws sp url st).fetched := by
  obtain ⟨hv, hf⟩ := processPage_visited_fetched net ws sp url st
  rw [hv, hf]
  exact fetchOk_push st.visited st.fetched url h hu

/-- Unfolding equation for phase1 at a positive fuel and empty queue. -/
theorem phase1_succ_nil (net : String → NetResult) (ws sp : String) (f : Nat)
    (st : Phase1State) (h : st.queue = []) :
    phase1 net ws sp (f + 1) st = some st := by
  conv_lhs => rw [phase1]
  rw [h]

/-- Unfolding equation for phase1 at a positive fuel and non-empty queue. -/
theorem phase1_succ_cons (net : String → NetResult) (ws sp : String) (f : Nat)
    (st : Phase1State) (u : String) (rest : List String) (h : st.queue = u :: rest) :
    phase1 net ws sp (f + 1) st
      = if u ∈ st.visited then phase1 net ws sp f { st with queue := rest }
        else phase1 net ws sp f (processPage net ws sp u { st with queue := rest }) := by
  conv_lhs => rw [phase1]
  rw [h]

/-- The Phase 1 loop preserves the at-most-once-fetch invariant. -/
theorem fetchOk_phase1 (net : String → NetResult) (ws sp : String) :
    ∀ (fuel : Nat) (st st' : Phase1State),
    FetchOk st.visited st.fetched → phase1 net ws sp fuel st = some st' →
    FetchOk st'.visited st'.fetched := by
  intro fuel
  induction fuel with
  | zero =>
    intro st st' _ hp
    simp [phase1] at hp
  | succ f ih =>
    intro st st' h hp
    rcases hq : st.queue with _ | ⟨u, rest⟩
    · rw [phase1_succ_nil net ws sp f st hq] at hp
      cases hp
      exact h
    · rw [phase1_succ_cons net ws sp f st u rest hq] at hp
      split_ifs at hp with hv
      · exact ih { st with queue := rest } st' h hp
      · exact ih (processPage net ws sp u { st with queue := rest }) st'
          (fetchOk_processPage net ws sp u { st with queue := rest } h hv) hp

/-- One Phase 2 / Phase 3 iteration preserves the invariant. -/
theorem fetchOk_phase23Step (net : String → NetResult) (label : String)
    (vs : VisitState) (link : String) (h : FetchOk vs.visitedUrls vs.fetched) :
    FetchOk (phase23Step net label vs link).visitedUrls (phase23Step net label vs link).fetched := by
  rcases phase23Step_fields net label vs link with ⟨_, hstep⟩ | ⟨hv, hvis, hfet⟩
  · rw [hstep]
    exact h
  · rw [hvis, hfet]
    exact fetchOk_push vs.visitedUrls vs.fetched link h hv

/-- A whole Phase 2 / Phase 3 loop preserves the invariant. -/
theorem fetchOk_phase23 (net : String → NetResult) (label : String) :
    ∀ (links : List String) (vs : VisitState),
    FetchOk vs.visitedUrls vs.fetched →
    FetchOk (phase23 net label links vs).visitedUrls (phase23 net label links vs).fetched := by
  intro links
  induction links with
  | nil => intro vs h; exact h
  | cons l ls ih =>
    intro vs h
    exact ih (phase23Step net label vs l) (fetchOk_phase23Step net label vs l h)

/-- A space crawl after a successful parse preserves the invariant. -/
theorem fetchOk_crawlValidSpace (net : String → NetResult) (fuel : Nat) (st : AppState)
    (url ws sn : String) (c : String) (st' : AppState)
    (h : FetchOk st.visitedUrls st.fetched)
    (hp : crawlValidSpace net fuel st url ws sn = some (Except.ok (c, st'))) :
    FetchOk st'.visitedUrls st'.fetched := by
  unfold crawlValidSpace at hp
  split_ifs at hp with hmem
  · simp only [Option.some.injEq, Except.ok.injEq, Prod.mk.injEq] at hp
    rw [← hp.2]
    exact h
  · split at hp
    · simp at hp
    next p1 hp1 =>
      simp only [Option.some.injEq, Except.ok.injEq] at hp
      have h1 : FetchOk p1.visited p1.fetched :=
        fetchOk_phase1 net ws (spacePrefOf ws sn) fuel _ p1 h hp1
      have h2 := fetchOk_phase23 net "LINKED PAGE (Other Space)" (p1.otherSpaceLinks.take 20)
        ⟨p1.visited, p1.fetched, p1.doc⟩ h1
      have h3 := fetchOk_phase23 net "EXTERNAL LINKED PAGE" (p1.externalLinks.take 10) _ h2
      have hst : st' = (crawlFinish net p1
          (st.processedSpaces ++ [ws ++ "::" ++ sn])).2 := by
        rw [hp]
      rw [hst]
      exact h3

/-- A whole space crawl preserves the invariant. -/
theorem fetchOk_crawlWikiSpace (net : String → NetResult) (fuel : Nat) (st : AppState)
    (url : String) (c : String) (st' : AppState)
    (h : FetchOk st.visitedUrls st.fetched)
    (hp : crawlWikiSpace net fuel st url = some (Except.ok (c, st'))) :
    FetchOk st'.visitedUrls st'.fetched := by
  unfold crawlWikiSpace at hp
  split_ifs at hp with hv
  · exact fetchOk_crawlValidSpace net fuel st url _ _ c st' h hp
  · simp at hp

/-- The seed loop preserves the invariant. -/
theorem fetchOk_collectLoop (net : String → NetResult) (fuel : Nat) :
    ∀ (rs : List Resource) (st : AppState) (body : String) (st' : AppState),
    FetchOk st.visitedUrls st.fetched →
    collectLoop net fuel st rs = some (body, st') →
    FetchOk st'.visitedUrls st'.fetched := by
  intro rs
  induction rs with
  | nil =>
    intro st body st' h hp
    unfold collectLoop at hp
    simp only [Option.some.injEq, Prod.mk.injEq] at hp
    rw [← hp.2]
    exact h
  | cons r rest ih =>
    intro st body st' h hp
    unfold collectLoop at hp
    split at hp
    · simp at hp
    next content st1 hcr =>
      rw [Option.map_eq_some'] at hp
      obtain ⟨p, hpl, hfp⟩ := hp
      have hst1 : FetchOk st1.visitedUrls st1.fetched :=
        fetchOk_crawlWikiSpace net fuel st r.url content st1 h hcr
      have hres := ih st1 p.1 p.2 hst1 hpl
      rw [Prod.mk.injEq] at hfp
      rw [← hfp.2]
      exact hres
    next msg hcr =>
      rw [Option.map_eq_some'] at hp
      obtain ⟨p, hpl, hfp⟩ := hp
      have hres := ih st p.1 p.2 h hpl
      rw [Prod.mk.injEq] at hfp
      rw [← hfp.2]
      exact hres

/-- C1: over an entire collectContext run — all seeds, all three phases of
every space crawl — the fetch log (the ordered list of every URL passed to
fetchPageContent) contains no URL twice: every URL is fetched at most once
per run, however often it is discovered, and the dedup is global (one
visited set across all spaces), not per-space. -/
theorem c1_fetch_at_most_once (net : String → NetResult) (fuel : Nat) (st : AppState)
    (now ua : String) (rs : List Resource) (d : String) (s : AppState)
    (h : collectContext net fuel st now ua rs = some (Except.ok (d, s))) :
    s.fetched.Nodup ∧ ∀ url : String, s.fetched.count url ≤ 1 := by
  unfold collectContext at h
  split_ifs at h with h0
  · simp at h
  · split at h
    · simp at h
    next body st' hl =>
      simp only [Option.some.injEq, Except.ok.injEq, Prod.mk.injEq] at h
      have hok : FetchOk (clearState st).visitedUrls (clearState st).fetched :=
        ⟨List.nodup_nil, fun u hu => absurd hu (List.not_mem_nil u)⟩
      have hres := fetchOk_collectLoop net fuel _ (clearState st) body st' hok hl
      rw [← h.2]
      exact ⟨hres.1, List.nodup_iff_count_le_one.1 hres.1⟩

set_option maxRecDepth 100000 in
/-- Witness for C1: two seeds in different spaces where the first space
links to the second seed; the run fetches each of the two URLs exactly
once (the second seed's Phase 1 finds it already visited). -/
theorem c1_witness :
    ∃ (d : String) (s : AppState),
      collectContext netW 3 emptyAppState "T" "UA"
          [⟨1, "https://h/wiki/spaces/A/pages/1/x"⟩, ⟨2, "https://h/wiki/spaces/B/pages/1/y"⟩]
        = some (Except.ok (d, s))
      ∧ s.fetched.Nodup ∧ ∀ url : String, s.fetched.count url ≤ 1 := by
  obtain ⟨d, s, h⟩ : ∃ (d : String) (s : AppState),
      collectContext netW 3 emptyAppState "T" "UA"
          [⟨1, "https://h/wiki/spaces/A/pages/1/x"⟩, ⟨2, "https://h/wiki/spaces/B/pages/1/y"⟩]
        = some (Except.ok (d, s)) := ⟨_, _, rfl⟩
  obtain ⟨h1, h2⟩ := c1_fetch_at_most_once netW 3 emptyAppState "T" "UA" _ d s h
  exact ⟨d, s, h, h1, h2⟩

/-- One categorizeLink step keeps the queue inside the universe U and
never increases the termination measure: enqueueing a fresh same-space
link pays for the queue growth by shrinking U minus spacePages. -/
theorem cat_measure (ws sp : String) (U : Finset String) (st : Phase1State) (link : String)
    (hl : strStarts link sp = true → link ∈ U)
    (hq : ∀ u ∈ st.queue, u ∈ U) :
    (∀ u ∈ (categorizeLink ws sp st link).queue, u ∈ U)
    ∧ p1Measure U (categorizeLink ws sp st link) ≤ p1Measure U st := by
  unfold categorizeLink
  split_ifs with h1 h2 h3 h4 h5
  · constructor
    · intro u hu
      rcases List.mem_append.1 hu with hm | hm
      · exact hq u hm
      · rcases List.mem_singleton.1 hm with rfl
        exact hl h1
    · have hU : link ∈ U \ st.spacePages.toFinset :=
        Finset.mem_sdiff.2 ⟨hl h1, fun hm => h2.1 (List.mem_toFinset.1 hm)⟩
      have hcard := Finset.card_erase_add_one hU
      have hins : (st.spacePages ++ [link]).toFinset = insert link st.spacePages.toFinset := by
        rw [List.toFinset_append, Finset.union_comm]
        simp [Finset.insert_eq]
      unfold p1Measure
      rw [hins, Finset.sdiff_insert, List.length_append]
      simp only [List.length_singleton]
      omega
  · exact ⟨hq, le_rfl⟩
  · exact ⟨hq, le_rfl⟩
  · exact ⟨hq, le_rfl⟩
  · exact ⟨hq, le_rfl⟩
  · exact ⟨hq, le_rfl⟩

/-- Categorizing a whole link list of same-space links inside U keeps the
queue inside U and never increases the measure. -/
theorem foldl_cat_measure (ws sp : String) (U : Finset String) :
    ∀ (links : List String) (st : Phase1State),
    (∀ l ∈ links, strStarts l sp = true → l ∈ U) →
    (∀ u ∈ st.queue, u ∈ U) →
    (∀ u ∈ (links.foldl (categorizeLink ws sp) st).queue, u ∈ U)
    ∧ p1Measure U (links.foldl (categorizeLink ws sp) st) ≤ p1Measure U st := by
  intro links
  induction links with
  | nil => intro st _ hq; exact ⟨hq, le_rfl⟩
  | cons l ls ih =>
    intro st hcl hq
    have hstep := cat_measure ws sp U st l (hcl l (List.mem_cons_self l ls)) hq
    have hrest := ih (categorizeLink ws sp st l)
      (fun x hx => hcl x (List.mem_cons_of_mem l hx)) hstep.1
    exact ⟨hrest.1, le_trans hrest.2 hstep.2⟩

/-- Processing one page of the universe keeps the queue inside U and
never increases the measure. -/
theorem processPage_measure (net : String → NetResult) (ws sp : String) (U : Finset String)
    (url : String) (st : Phase1State)
    (hcl : SameSpaceClosed net sp U) (hu : url ∈ U) (hq : ∀ u ∈ st.queue, u ∈ U) :
    (∀ u ∈ (processPage net ws sp url st).queue, u ∈ U)
    ∧ p1Measure U (processPage net ws sp url st) ≤ p1Measure U st := by
  unfold processPage
  have hlinks : ∀ l ∈ (fetchPageContent net url).links, strStarts l sp = true → l ∈ U :=
    fun l hl hs => hcl url hu l hl hs
  obtain ⟨-, -, hq', hsp, -, -⟩ := pageDocUpdate_fields (fetchPageContent net url) url
    { st with visited := st.visited ++ [url], fetched := st.fetched ++ [url] }
  have hmid : p1Measure U (pageDocUpdate (fetchPageContent net url) url
      { st with visited := st.visited ++ [url], fetched := st.fetched ++ [url] })
      = p1Measure U st := by
    unfold p1Measure
    rw [hq', hsp]
  have hqmid : ∀ u ∈ (pageDocUpdate (fetchPageContent net url) url
      { st with visited := st.visited ++ [url], fetched := st.fetched ++ [url] }).queue, u ∈ U := by
    rw [hq']
    exact hq
  have hfold := foldl_cat_measure ws sp U (fetchPageContent net url).links _ hlinks hqmid
  refine ⟨hfold.1, ?_⟩
  calc p1Measure U ((fetchPageContent net url).links.foldl (categorizeLink ws sp)
        (pageDocUpdate (fetchPageContent net url) url
          { st with visited := st.visited ++ [url], fetched := st.fetched ++ [url] }))
      ≤ p1Measure U (pageDocUpdate (fetchPageContent net url) url
          { st with visited := st.visited ++ [url], fetched := st.fetched ++ [url] }) := hfold.2
    _ = p1Measure U st := hmid

/-- When the Phase 1 loop stops without running out of fuel, its queue is
empty: the loop terminates exactly when the crawl queue empties. -/
theorem phase1_some_queue_nil (net : String → NetResult) (ws sp : String) :
    ∀ (fuel : Nat) (st st' : Phase1State),
    phase1 net ws sp fuel st = some st' → st'.queue = [] := by
  intro fuel
  induction fuel with
  | zero => intro st st' hp; simp [phase1] at hp
  | succ f ih =>
    intro st st' hp
    rcases hq : st.queue with _ | ⟨u, rest⟩
    · rw [phase1_succ_nil net ws sp f st hq] at hp
      cases hp
      exact hq
    · rw [phase1_succ_cons net ws sp f st u rest hq] at hp
      split_ifs at hp with hv
      · exact ih _ _ hp
      · exact ih _ _ hp

/-- With fuel exceeding the measure, the Phase 1 loop completes. -/
theorem phase1_total (net : String → NetResult) (ws sp : String) (U : Finset String)
    (hcl : SameSpaceClosed net sp U) :
    ∀ (fuel : Nat) (st : Phase1State),
    (∀ u ∈ st.queue, u ∈ U) → p1Measure U st < fuel →
    ∃ st', phase1 net ws sp fuel st = some st' := by
  intro fuel
  induction fuel with
  | zero => intro st _ hm; exact absurd hm (Nat.not_lt_zero _)
  | succ f ih =>
    intro st hq hm
    rcases hqe : st.queue with _ | ⟨u, rest⟩
    · exact ⟨st, phase1_succ_nil net ws sp f st hqe⟩
    · have hqrest : ∀ x ∈ rest, x ∈ U :=
        fun x hx => hq x (by rw [hqe]; exact List.mem_cons_of_mem u hx)
      have hu : u ∈ U := hq u (by rw [hqe]; exact List.mem_cons_self u rest)
      have hmeq : p1Measure U st
          = 2 * (U \ st.spacePages.toFinset).card + (rest.length + 1) := by
        unfold p1Measure
        rw [hqe, List.length_cons]
      have hmrest : p1Measure U { st with queue := rest }
          = 2 * (U \ st.spacePages.toFinset).card + rest.length := rfl
      by_cases hv : u ∈ st.visited
      · obtain ⟨st', hst'⟩ := ih { st with queue := rest } hqrest (by omega)
        refine ⟨st', ?_⟩
        rw [phase1_succ_cons net ws sp f st u rest hqe, if_pos hv]
        exact hst'
      · have hpp := processPage_measure net ws sp U u { st with queue := rest } hcl hu hqrest
        obtain ⟨st', hst'⟩ := ih (processPage net ws sp u { st with queue := rest })
          hpp.1 (by omega)
        refine ⟨st', ?_⟩
        rw [phase1_succ_cons net ws sp f st u rest hqe, if_neg hv]
        exact hst'

/-- C9: for every finite same-space link universe U containing the queue
and closed under same-space link discovery (the "finite same-space link
graph"), the Phase 1 loop run with fuel p1Measure U st + 1 completes —
i.e. the unbounded while loop of the source terminates — and it stops
exactly when the crawl queue is empty.  Nothing bounds U: there is no
page-count or depth limit, only the space's actual size via the measure. -/
theorem c9_phase1_terminates (net : String → NetResult) (ws sp : String) (U : Finset String)
    (st : Phase1State) (hcl : SameSpaceClosed net sp U) (hq : ∀ u ∈ st.queue, u ∈ U) :
    ∃ st', phase1 net ws sp (p1Measure U st + 1) st = some st' ∧ st'.queue = [] := by
  obtain ⟨st', hst'⟩ := phase1_total net ws sp U hcl (p1Measure U st + 1) st hq
    (Nat.lt_succ_self _)
  exact ⟨st', hst', phase1_some_queue_nil net ws sp _ st st' hst'⟩

/-- Witness for C9: the crawl of a one-page space over a failing network
terminates with an empty queue. -/
theorem c9_witness :
    ∃ st', phase1 net0 "https://h" (spacePrefOf "https://h" "A")
        (p1Measure {"https://h/wiki/spaces/A/p"}
          (crawlPhase1Start emptyAppState "https://h" "A" "https://h/wiki/spaces/A/p") + 1)
        (crawlPhase1Start emptyAppState "https://h" "A" "https://h/wiki/spaces/A/p")
      = some st' ∧ st'.queue = [] := by
  refine c9_phase1_terminates net0 "https://h" (spacePrefOf "https://h" "A")
    {"https://h/wiki/spaces/A/p"}
    (crawlPhase1Start emptyAppState "https://h" "A" "https://h/wiki/spaces/A/p") ?_ ?_
  · intro url _ l hl _
    simp [fetchPageContent, net0] at hl
  · intro u hu
    have he : u = "https://h/wiki/spaces/A/p" := by
      simpa [crawlPhase1Start] using hu
    simp [he]
